import Mathlib

/-!
Verification of the data-loading and aggregation logic of the ECO
household-electricity notebook (HW4/hw4.ipynb).

The notebook's substantive logic is embedded shallowly:
  - a directory is a list of (filename, parsed CSV rows) pairs, each CSV
    row being the list of its numeric values;
  - `load_data` mirrors the Python loop: sort the listing, keep the
    files ending in `.csv`, attach the date parsed from the filename
    with the extension stripped, concatenate, and keep rows dated
    strictly before the cutoff;
  - the unit conversion and the groupby/merge/percentage aggregation
    are modelled on row structures over `ℚ` (pandas floats are modelled
    by exact rationals; `ℚ` division by zero is total with junk value 0,
    standing in for pandas producing inf/NaN).
-/

/-- A calendar date encoded as `year * 10000 + month * 100 + day`; the
encoding is strictly monotone in (year, month, day), so `<` on it agrees
with the chronological comparison pandas performs in
`combined_data[combined_data['date'] < time_point]`. -/
abbrev Date := Nat

/-- The numeric value of a decimal digit character, `none` otherwise. -/
def digitVal (c : Char) : Option Nat :=
  if ('0' ≤ c ∧ c ≤ '9') then some (c.toNat - Char.toNat '0') else none

/-- Accumulate a decimal number over a list of digit characters;
`none` as soon as a non-digit appears. -/
def digitsAux : List Char → Nat → Option Nat
  | [], acc => some acc
  | c :: rest, acc =>
    match digitVal c with
    | some d => digitsAux rest (acc * 10 + d)
    | none => none

/-- Read a nonempty all-digit character list as a natural number. -/
def digitsToNat : List Char → Option Nat
  | [] => none
  | c :: rest => digitsAux (c :: rest) 0

/-- Split a character list on the dash character. -/
def splitDash : List Char → List (List Char)
  | [] => [[]]
  | c :: rest =>
    if c = '-' then [] :: splitDash rest
    else
      match splitDash rest with
      | [] => [[c]]
      | g :: gs => (c :: g) :: gs

/-- Model of `pandas.to_datetime` on the `YYYY-MM-DD` strings carried by
the notebook's filenames: split on dashes, read the three numeric
fields, validate month and day ranges. `none` models the `pd.to_datetime`
exception on a string not of this shape. -/
def parseDate (s : String) : Option Date :=
  match splitDash s.data with
  | [y, m, d] =>
    match digitsToNat y, digitsToNat m, digitsToNat d with
    | some yn, some mn, some dn =>
      if (1 ≤ mn ∧ mn ≤ 12 ∧ 1 ≤ dn ∧ dn ≤ 31) then
        some (yn * 10000 + mn * 100 + dn)
      else none
    | _, _, _ => none
  | _ => none

/-- Python's `file.endswith(".csv")`, at the character level. -/
def endsWithCsv (name : String) : Bool :=
  decide (name.data.drop (name.data.length - 4) = ['.', 'c', 's', 'v'])

/-- Python's `file[:-4]`: the filename with its last four characters
removed. -/
def dropExt (name : String) : String :=
  String.mk (name.data.take (name.data.length - 4))

/-- One row of a loaded table: the anonymous numeric columns read by
`pd.read_csv(file_path, header=None)` plus the date column attached by
`df['date'] = pd.to_datetime(file[:-4])`. -/
structure Row where
  vals : List ℚ
  date : Date
  deriving Repr, DecidableEq

/-- A directory listing: filenames paired with the rows their file
holds. -/
abbrev Dir := List (String × List (List ℚ))

/-- The loop of `load_data`: walk the (already sorted) listing, keep the
files ending in `.csv`, tag each file's rows with the date parsed from
its filename. A filename whose date fails to parse raises inside
`pd.to_datetime`, aborting the whole loop with no partial result. -/
def loadFiles : Dir → Except String (List (List Row))
  | [] => Except.ok []
  | (name, rows) :: rest =>
    if endsWithCsv name then
      match parseDate (dropExt name) with
      | none => Except.error (String.append r"Unknown datetime string format: " (dropExt name))
      | some d =>
        match loadFiles rest with
        | Except.error e => Except.error e
        | Except.ok tables => Except.ok ((rows.map fun v => Row.mk v d) :: tables)
    else loadFiles rest

/-- The comparator of Python's `sorted(os.listdir(folder_path))`:
lexicographic order on the filenames, stated on their character lists
(the order underlying the `String` order). -/
def fileLe (a b : String × List (List ℚ)) : Prop := a.1.data ≤ b.1.data

instance : DecidableRel fileLe := fun a b =>
  inferInstanceAs (Decidable (a.1.data ≤ b.1.data))

/-- `load_data(folder_path)`: list the directory in sorted filename
order, load every `.csv` file tagged with its filename date, concatenate
(`pd.concat` raises `ValueError: No objects to concatenate` when the
list of loaded frames is empty), and keep the rows whose date is
strictly before the cutoff. -/
def load_data (dir : Dir) (time_point : Date) : Except String (List Row) :=
  match loadFiles (List.insertionSort fileLe dir) with
  | Except.error e => Except.error e
  | Except.ok tables =>
    if tables.isEmpty then Except.error r"No objects to concatenate"
    else Except.ok ((tables.flatten).filter fun r => r.date < time_point)

/-- Following the spec's words, for comparison with `load_data`: the
rows of every `.csv` file of the directory, in lexicographic filename
order, each tagged with the date parsed from its filename, restricted to
the rows dated strictly before the cutoff. -/
def loadDataSpecRows (dir : Dir) (time_point : Date) : List Row :=
  (((List.insertionSort fileLe dir).filterMap fun f =>
      if endsWithCsv f.1 then
        (parseDate (dropExt f.1)).map fun d => f.2.map fun v => Row.mk v d
      else none).flatten).filter fun r => r.date < time_point

/-- One row of a smart-meter table after the notebook's schema
assignment (`sm_data.columns = ['powerallphases', ...]`): the primary
column `powerallphases`, the remaining fifteen numeric columns
(`powerphase1` through `extra_col2`) kept in order, and the date. -/
structure SmRow where
  powerallphases : ℚ
  others : List ℚ
  date : Date
  deriving Repr, DecidableEq

/-- `sm_data['powerallphases'] = sm_data['powerallphases'] / (3600 * 1000)`:
the elementwise conversion of the primary meter column to kWh. -/
def convertSm (rows : List SmRow) : List SmRow :=
  rows.map fun r => { r with powerallphases := r.powerallphases / (3600 * 1000) }

/-- One row of a plug table after schema assignment
(`df.columns = ['power', 'date']`). -/
structure PlugRow where
  power : ℚ
  date : Date
  deriving Repr, DecidableEq

/-- `df['power'] = df['power'] / (3600 * 1000)`: the elementwise
conversion of the plug power column to kWh. -/
def convertPlug (rows : List PlugRow) : List PlugRow :=
  rows.map fun r => { r with power := r.power / (3600 * 1000) }

/-- One row of `combined_sm_data`: the meter columns plus the
`household` label added before concatenation. -/
structure SmDataRow where
  powerallphases : ℚ
  others : List ℚ
  date : Date
  household : String
  deriving Repr, DecidableEq

/-- One row of `combined_plugs_data`: the plug columns plus the
`appliance` and `household` labels. -/
structure PlugDataRow where
  power : ℚ
  date : Date
  appliance : String
  household : String
  deriving Repr, DecidableEq

/-- Add a value to a key's running sum in an association list, appending
a fresh entry when the key is new: one step of the groupby-sum pass. -/
def addToGroup {κ : Type} [DecidableEq κ] (k : κ) (v : ℚ) :
    List (κ × ℚ) → List (κ × ℚ)
  | [] => [(k, v)]
  | (q, s) :: rest =>
    if k = q then (q, s + v) :: rest else (q, s) :: addToGroup k v rest

/-- `groupby(keys).agg(sum)`: a single pass over the rows, accumulating
each row's value into its key's entry. -/
def groupSum {α κ : Type} [DecidableEq κ] (key : α → κ) (val : α → ℚ)
    (rows : List α) : List (κ × ℚ) :=
  rows.foldl (fun acc r => addToGroup (key r) (val r) acc) []

/-- Look up a key's accumulated value in an association list. -/
def lookupK {κ : Type} [DecidableEq κ] (k : κ) : List (κ × ℚ) → Option ℚ
  | [] => none
  | (q, v) :: rest => if k = q then some v else lookupK k rest

/-- `combined_plugs_data.groupby(['household', 'appliance']).agg({'power': 'sum'})`. -/
def total_appliance_power (rows : List PlugDataRow) : List ((String × String) × ℚ) :=
  groupSum (fun r => (r.household, r.appliance)) (fun r => r.power) rows

/-- `combined_sm_data.groupby(['household']).agg({'powerallphases': 'sum'})`. -/
def total_household_power (rows : List SmDataRow) : List (String × ℚ) :=
  groupSum (fun r => r.household) (fun r => r.powerallphases) rows

/-- One row of the `total_power` frame: the merge keys and columns, plus
the derived `percentage` column. -/
structure TPRow where
  household : String
  appliance : String
  power : ℚ
  powerallphases : ℚ
  percentage : ℚ
  deriving Repr, DecidableEq

/-- `total_appliance_power.merge(total_household_power, on='household')`:
an inner join, so an appliance row whose household carries no meter
total is dropped. -/
def mergeHousehold (app : List ((String × String) × ℚ))
    (hh : List (String × ℚ)) : List (String × String × ℚ × ℚ) :=
  app.foldr
    (fun e acc =>
      match lookupK e.1.1 hh with
      | some p => (e.1.1, e.1.2, e.2, p) :: acc
      | none => acc)
    []

/-- `total_power['percentage'] = total_power['power'] / total_power['powerallphases'] * 100`. -/
def addPercentage (rows : List (String × String × ℚ × ℚ)) : List TPRow :=
  rows.map fun e => TPRow.mk e.1 e.2.1 e.2.2.1 e.2.2.2 (e.2.2.1 / e.2.2.2 * 100)

/-- The full `total_power` frame of the notebook, from the combined plug
and meter rows. -/
def total_power (plugRows : List PlugDataRow) (smRows : List SmDataRow) :
    List TPRow :=
  addPercentage
    (mergeHousehold (total_appliance_power plugRows) (total_household_power smRows))

/-- The sum, following the spec's words, of the power of exactly the
plug rows of one (household, appliance) group. -/
def appGroupSum (h a : String) : List PlugDataRow → ℚ
  | [] => 0
  | r :: rest =>
    if (r.household = h ∧ r.appliance = a) then r.power + appGroupSum h a rest
    else appGroupSum h a rest

/-- The sum, following the spec's words, of `powerallphases` over
exactly one household's meter rows. -/
def hhGroupSum (h : String) : List SmDataRow → ℚ
  | [] => 0
  | r :: rest =>
    if r.household = h then r.powerallphases + hhGroupSum h rest
    else hhGroupSum h rest

/-- The sum of the `percentage` column over one household's rows of the
`total_power` frame. -/
def sumPercent (h : String) : List TPRow → ℚ
  | [] => 0
  | r :: rest =>
    if r.household = h then r.percentage + sumPercent h rest
    else sumPercent h rest

/-- The sum of one household's per-appliance energy totals. -/
def sumApplianceTotals (h : String) : List ((String × String) × ℚ) → ℚ
  | [] => 0
  | e :: rest =>
    if e.1.1 = h then e.2 + sumApplianceTotals h rest
    else sumApplianceTotals h rest

theorem lookupK_addToGroup_same {κ : Type} [DecidableEq κ] (k : κ) (v : ℚ)
    (l : List (κ × ℚ)) :
    lookupK k (addToGroup k v l) =
      some (match lookupK k l with | some s => s + v | none => v) := by
  induction l with
  | nil => simp [addToGroup, lookupK]
  | cons e rest ih =>
    obtain ⟨q, s⟩ := e
    by_cases h : k = q
    · subst h
      simp [addToGroup, lookupK]
    · simp [addToGroup, lookupK, h, ih]

theorem lookupK_addToGroup_ne {κ : Type} [DecidableEq κ] {k q : κ}
    (hne : k ≠ q) (v : ℚ) (l : List (κ × ℚ)) :
    lookupK k (addToGroup q v l) = lookupK k l := by
  induction l with
  | nil => simp [addToGroup, lookupK, hne]
  | cons e rest ih =>
    obtain ⟨p, s⟩ := e
    by_cases h : q = p
    · subst h
      simp [addToGroup, lookupK, hne]
    · by_cases h2 : k = p
      · subst h2
        simp [addToGroup, lookupK, h]
      · simp [addToGroup, lookupK, h, h2, ih]

/-- The value of a key's group: the sum of the values of exactly the
rows carrying that key. -/
def sumVal {α κ : Type} [DecidableEq κ] (key : α → κ) (val : α → ℚ)
    (k : κ) : List α → ℚ
  | [] => 0
  | r :: rest =>
    if key r = k then val r + sumVal key val k rest else sumVal key val k rest

theorem lookupK_groupSum_aux {α κ : Type} [DecidableEq κ] (key : α → κ)
    (val : α → ℚ) (k : κ) :
    ∀ (rows : List α) (acc : List (κ × ℚ)),
      lookupK k (rows.foldl (fun a r => addToGroup (key r) (val r) a) acc) =
        match lookupK k acc with
        | some s => some (s + sumVal key val k rows)
        | none =>
          if rows.any (fun r => decide (key r = k)) then
            some (sumVal key val k rows)
          else none := by
  intro rows
  induction rows with
  | nil =>
    intro acc
    cases h : lookupK k acc <;> simp [sumVal, h]
  | cons r rest ih =>
    intro acc
    by_cases hk : key r = k
    · have hstep := lookupK_addToGroup_same k (val r) acc
      rw [List.foldl_cons, ih, hk, hstep]
      cases h : lookupK k acc <;>
        simp [sumVal, hk, h, add_assoc]
    · have hstep := lookupK_addToGroup_ne (fun he => hk he.symm) (val r) acc
      rw [List.foldl_cons, ih, hstep]
      cases h : lookupK k acc <;> simp [sumVal, hk, h]

theorem lookupK_groupSum {α κ : Type} [DecidableEq κ] (key : α → κ)
    (val : α → ℚ) (k : κ) (rows : List α) :
    lookupK k (groupSum key val rows) =
      if rows.any (fun r => decide (key r = k)) then
        some (sumVal key val k rows)
      else none := by
  have h := lookupK_groupSum_aux key val k rows []
  simpa [groupSum, lookupK] using h

theorem appGroupSum_eq_sumVal (h a : String) (rows : List PlugDataRow) :
    appGroupSum h a rows =
      sumVal (fun r => (r.household, r.appliance)) (fun r => r.power) (h, a) rows := by
  induction rows with
  | nil => simp [appGroupSum, sumVal]
  | cons r rest ih =>
    by_cases hr : (r.household = h ∧ r.appliance = a)
    · simp [appGroupSum, sumVal, hr, Prod.ext_iff, ih]
    · simp [appGroupSum, sumVal, hr, Prod.ext_iff, ih]

theorem hhGroupSum_eq_sumVal (h : String) (rows : List SmDataRow) :
    hhGroupSum h rows =
      sumVal (fun r => r.household) (fun r => r.powerallphases) h rows := by
  induction rows with
  | nil => simp [hhGroupSum, sumVal]
  | cons r rest ih =>
    by_cases hr : r.household = h
    · simp [hhGroupSum, sumVal, hr, ih]
    · simp [hhGroupSum, sumVal, hr, ih]

/-- C4: the aggregator's per-(household, appliance) total is the sum of
the power of exactly that group's rows, and the per-household meter
total is the sum of `powerallphases` over exactly that household's rows;
a key has an entry exactly when some row carries it, so the aggregation
drops no row of its input. -/
theorem c4_aggregation_sums_exactly_group_rows
    (plugRows : List PlugDataRow) (smRows : List SmDataRow) (h a : String) :
    (lookupK (h, a) (total_appliance_power plugRows) =
      if plugRows.any (fun r => decide (r.household = h ∧ r.appliance = a)) then
        some (appGroupSum h a plugRows)
      else none) ∧
    (lookupK h (total_household_power smRows) =
      if smRows.any (fun r => decide (r.household = h)) then
        some (hhGroupSum h smRows)
      else none) := by
  constructor
  · rw [total_appliance_power, lookupK_groupSum, appGroupSum_eq_sumVal]
    have hp : (fun r : PlugDataRow => decide ((r.household, r.appliance) = (h, a))) =
        (fun r : PlugDataRow => decide (r.household = h ∧ r.appliance = a)) := by
      funext r
      simp [Prod.ext_iff]
    rw [hp]
  · rw [total_household_power, lookupK_groupSum, hhGroupSum_eq_sumVal]

theorem sumPercent_merge (hhT : List (String × ℚ)) (h : String) (P : ℚ)
    (hp : lookupK h hhT = some P) :
    ∀ app : List ((String × String) × ℚ),
      sumPercent h (addPercentage (mergeHousehold app hhT)) =
        sumApplianceTotals h app / P * 100 := by
  intro app
  induction app with
  | nil => simp [mergeHousehold, addPercentage, sumPercent, sumApplianceTotals]
  | cons e rest ih =>
    obtain ⟨⟨eh, ea⟩, ep⟩ := e
    by_cases hh : eh = h
    · subst hh
      simp only [mergeHousehold, List.foldr_cons, hp] at ih ⊢
      simp only [addPercentage, List.map_cons, sumPercent, sumApplianceTotals]
      simp only [addPercentage] at ih
      simp [ih, add_div, add_mul]
    · by_cases hl : ∃ q, lookupK eh hhT = some q
      · obtain ⟨q, hq⟩ := hl
        simp only [mergeHousehold, List.foldr_cons, hq] at ih ⊢
        simp only [addPercentage, List.map_cons, sumPercent, sumApplianceTotals]
        simp only [addPercentage] at ih
        simp [hh, ih]
      · have hnone : lookupK eh hhT = none := by
          cases hv : lookupK eh hhT with
          | none => rfl
          | some q => exact absurd ⟨q, hv⟩ hl
        simp only [mergeHousehold, List.foldr_cons, hnone] at ih ⊢
        simp only [sumApplianceTotals]
        simp [hh, ih]

/-- C3: for a household carrying a meter total, the percentage shares of
its appliances sum to the ratio of the sum of its per-appliance energy
totals to its meter total, times 100 — an identity that does not force
the sum to be 100. -/
theorem c3_percentages_sum_to_ratio (plugRows : List PlugDataRow)
    (smRows : List SmDataRow) (h : String) (P : ℚ)
    (hp : lookupK h (total_household_power smRows) = some P) :
    sumPercent h (total_power plugRows smRows) =
      sumApplianceTotals h (total_appliance_power plugRows) / P * 100 := by
  exact sumPercent_merge (total_household_power smRows) h P hp
    (total_appliance_power plugRows)

/-- Concrete instantiation of `c3_percentages_sum_to_ratio`: one
household with one plug row of power 2 and one meter row of total 8; the
share sums to 25, which is 2 / 8 * 100 and not 100. -/
theorem c3_percentages_sum_to_ratio_witness :
    lookupK r"Household 4"
        (total_household_power [SmDataRow.mk 8 [] 0 r"Household 4"]) = some 8 ∧
    sumPercent r"Household 4"
        (total_power [PlugDataRow.mk 2 0 r"01" r"Household 4"]
          [SmDataRow.mk 8 [] 0 r"Household 4"]) =
      sumApplianceTotals r"Household 4"
          (total_appliance_power [PlugDataRow.mk 2 0 r"01" r"Household 4"]) / 8 * 100 := by
  constructor
  · decide
  · exact c3_percentages_sum_to_ratio [PlugDataRow.mk 2 0 r"01" r"Household 4"]
      [SmDataRow.mk 8 [] 0 r"Household 4"] r"Household 4" 8 (by decide)

/-- C2: the conversion divides the primary power column elementwise by
3,600,000 (for the meter's `powerallphases` and the plug's `power`
alike), and a raw meter reading of 3,600,000 converts to exactly 1 kWh. -/
theorem c2_unit_conversion_divides_by_3600000 :
    (∀ rows : List SmRow,
      (convertSm rows).map (fun r => r.powerallphases) =
        rows.map (fun r => r.powerallphases / 3600000)) ∧
    (∀ rows : List PlugRow,
      (convertPlug rows).map (fun r => r.power) =
        rows.map (fun r => r.power / 3600000)) ∧
    convertSm [SmRow.mk 3600000 [] 0] = [SmRow.mk 1 [] 0] := by
  refine ⟨?_, ?_, ?_⟩
  · intro rows
    simp [convertSm]
    norm_num
  · intro rows
    simp [convertPlug]
    norm_num
  · norm_num [convertSm]

/-- C7: the conversion is linear and reversible over exact arithmetic:
multiplying a converted value back by 3,600,000 reproduces the raw
value, for every row of either table kind. -/
theorem c7_unit_conversion_reversible (rows : List SmRow) (prows : List PlugRow) :
    ((convertSm rows).map (fun r => r.powerallphases * 3600000) =
      rows.map (fun r => r.powerallphases)) ∧
    ((convertPlug prows).map (fun r => r.power * 3600000) =
      prows.map (fun r => r.power)) := by
  constructor
  · simp only [convertSm, List.map_map]
    refine List.map_congr_left ?_
    intro r _
    simp only [Function.comp_apply]
    rw [show ((3600 : ℚ) * 1000) = 3600000 by norm_num]
    exact div_mul_cancel₀ _ (by norm_num)
  · simp only [convertPlug, List.map_map]
    refine List.map_congr_left ?_
    intro r _
    simp only [Function.comp_apply]
    rw [show ((3600 : ℚ) * 1000) = 3600000 by norm_num]
    exact div_mul_cancel₀ _ (by norm_num)

/-- C8: applying the conversion twice divides the raw value by 3,600,000
twice, so the conversion is not idempotent: on a concrete row the
double-converted table differs from the once-converted one. -/
theorem c8_double_conversion (rows : List SmRow) (prows : List PlugRow) :
    ((convertSm (convertSm rows)).map (fun r => r.powerallphases) =
      rows.map (fun r => r.powerallphases / 3600000 / 3600000)) ∧
    ((convertPlug (convertPlug prows)).map (fun r => r.power) =
      prows.map (fun r => r.power / 3600000 / 3600000)) ∧
    convertSm (convertSm [SmRow.mk 3600000 [] 0]) ≠ convertSm [SmRow.mk 3600000 [] 0] := by
  refine ⟨?_, ?_, ?_⟩
  · simp [convertSm]
    norm_num
  · simp [convertPlug]
    norm_num
  · simp [convertSm]
    norm_num

/-- C9: the percentage computation is unguarded against a zero meter
total: on a household whose meter total is 0 and whose appliance drew
nonzero power, the `total_power` frame still carries the appliance's
row, and its percentage is the junk value of the total division
`power / 0 * 100` (0 in `ℚ`; pandas produces inf there). -/
theorem c9_zero_meter_total_division_reachable :
    ∃ row ∈ total_power [PlugDataRow.mk 5 0 r"01" r"Household 4"]
        [SmDataRow.mk 0 [] 0 r"Household 4"],
      row.powerallphases = 0 ∧ row.power ≠ 0 ∧
        row.percentage = row.power / row.powerallphases * 100 := by
  have htp : total_power [PlugDataRow.mk 5 0 r"01" r"Household 4"]
      [SmDataRow.mk 0 [] 0 r"Household 4"] =
      [TPRow.mk r"Household 4" r"01" 5 0 0] := by
    simp [total_power, total_appliance_power, total_household_power, groupSum,
      addToGroup, lookupK, mergeHousehold, addPercentage]
  refine ⟨TPRow.mk r"Household 4" r"01" 5 0 0, ?_, rfl, by norm_num, by norm_num⟩
  rw [htp]
  exact List.mem_singleton_self _

/-- C10: the conversion changes only the primary power column: it keeps
the row count, and at every index it leaves the fifteen other meter
columns and the date (for plug rows, the date) unchanged while dividing
only the primary column. -/
theorem c10_conversion_touches_only_power_column
    (rows : List SmRow) (prows : List PlugRow) (i j : Nat)
    (hi : i < rows.length) (hi2 : i < (convertSm rows).length)
    (hj : j < prows.length) (hj2 : j < (convertPlug prows).length) :
    (convertSm rows).length = rows.length ∧
    (convertPlug prows).length = prows.length ∧
    (convertSm rows)[i].others = rows[i].others ∧
    (convertSm rows)[i].date = rows[i].date ∧
    (convertSm rows)[i].powerallphases = rows[i].powerallphases / 3600000 ∧
    (convertPlug prows)[j].date = prows[j].date ∧
    (convertPlug prows)[j].power = prows[j].power / 3600000 := by
  refine ⟨?_, ?_, ?_, ?_, ?_, ?_, ?_⟩ <;>
    simp [convertSm, convertPlug] <;> norm_num

/-- Concrete instantiation of `c10_conversion_touches_only_power_column`
on one-row tables. -/
theorem c10_conversion_touches_only_power_column_witness :
    (convertSm [SmRow.mk 2 [3] 4]).length = [SmRow.mk 2 [3] 4].length ∧
    (convertPlug [PlugRow.mk 6 7]).length = [PlugRow.mk 6 7].length := by
  have h := c10_conversion_touches_only_power_column [SmRow.mk 2 [3] 4]
    [PlugRow.mk 6 7] 0 0 (by decide) (by decide) (by decide) (by decide)
  exact ⟨h.1, h.2.1⟩

theorem loadFiles_ok_eq (l : Dir) :
    ∀ tables, loadFiles l = Except.ok tables →
      tables = l.filterMap fun f =>
        if endsWithCsv f.1 then
          (parseDate (dropExt f.1)).map fun d => f.2.map fun v => Row.mk v d
        else none := by
  induction l with
  | nil =>
    intro tables ht
    simp only [loadFiles] at ht
    injection ht with ht2
    simp [ht2.symm]
  | cons f rest ih =>
    intro tables ht
    obtain ⟨name, rows⟩ := f
    by_cases hcsv : endsWithCsv name = true
    · cases hd : parseDate (dropExt name) with
      | none =>
        simp only [loadFiles, hcsv, if_true, hd] at ht
        exact Except.noConfusion ht
      | some d =>
        cases hr : loadFiles rest with
        | error e =>
          simp only [loadFiles, hcsv, if_true, hd, hr] at ht
          exact Except.noConfusion ht
        | ok ts =>
          simp only [loadFiles, hcsv, if_true, hd, hr] at ht
          injection ht with ht2
          subst ht2
          rw [ih ts hr]
          simp [List.filterMap_cons, hcsv, hd]
    · simp only [loadFiles, hcsv] at ht
      simp only [List.filterMap_cons, hcsv]
      simp only [Bool.false_eq_true, if_false]
      exact ih tables ht

/-- C1: whenever `load_data` returns a table, that table is exactly the
concatenation, in lexicographic filename order, of the rows of the
directory's `.csv` files tagged with their filename dates and restricted
to dates strictly before the cutoff; in particular every returned row is
dated strictly before the cutoff and no row dated on or after it
appears. -/
theorem c1_load_data_exactly_rows_before_cutoff (dir : Dir) (time_point : Date)
    (rows : List Row) (h : load_data dir time_point = Except.ok rows) :
    rows = loadDataSpecRows dir time_point ∧ ∀ r ∈ rows, r.date < time_point := by
  unfold load_data at h
  cases hl : loadFiles (List.insertionSort fileLe dir) with
  | error e =>
    rw [hl] at h
    exact Except.noConfusion h
  | ok tables =>
    rw [hl] at h
    by_cases he : tables.isEmpty = true
    · simp only [he, if_true] at h
      exact Except.noConfusion h
    · simp only [he, Bool.false_eq_true, if_false] at h
      injection h with h2
      constructor
      · rw [← h2]
        unfold loadDataSpecRows
        rw [loadFiles_ok_eq _ tables hl]
      · intro r hr
        rw [← h2] at hr
        have hm := List.mem_filter.mp hr
        simpa using hm.2

/-- The sorted three-file directory of the spec's example, listed out of
order to exercise the sorting step. -/
def exDir3 : Dir :=
  [(r"2012-06-29.csv", [[3]]), (r"2012-06-27.csv", [[1]]), (r"2012-06-28.csv", [[2]])]

/-- The rows `load_data` returns on `exDir3` with cutoff 2012-06-29:
only the files of June 27 and 28 remain. -/
def exRows3 : List Row := [Row.mk [1] 20120627, Row.mk [2] 20120628]

/-- Concrete instantiation of `c1_load_data_exactly_rows_before_cutoff`
on the spec's example: three daily files dated 2012-06-27/28/29 and
cutoff 2012-06-29 yield exactly the rows of the first two files. -/
theorem c1_load_data_exactly_rows_before_cutoff_witness :
    load_data exDir3 20120629 = Except.ok exRows3 ∧
    (exRows3 = loadDataSpecRows exDir3 20120629 ∧
      ∀ r ∈ exRows3, r.date < 20120629) :=
  ⟨by rfl, c1_load_data_exactly_rows_before_cutoff exDir3 20120629 exRows3 (by rfl)⟩

/-- C5, as the spec states it, is false on the code: on the empty
directory `load_data` does not return an empty table; the `pd.concat`
call on an empty frame list raises instead. -/
theorem c5_counterexample_empty_dir_raises :
    load_data ([] : Dir) 20120701 ≠ Except.ok [] :=
  fun hc => Except.noConfusion hc

theorem loadFiles_all_non_csv (l : Dir) (hnc : ∀ f ∈ l, endsWithCsv f.1 = false) :
    loadFiles l = Except.ok [] := by
  induction l with
  | nil => rfl
  | cons f rest ih =>
    obtain ⟨name, rows⟩ := f
    have h1 : endsWithCsv name = false := hnc _ (List.mem_cons_self _ _)
    have h2 : ∀ g ∈ rest, endsWithCsv g.1 = false := fun g hg =>
      hnc g (List.mem_cons_of_mem _ hg)
    simp only [loadFiles, h1, Bool.false_eq_true, if_false]
    exact ih h2

/-- C5 amended: on a directory containing no `.csv` file — in particular
on an empty directory — `load_data` propagates the `pd.concat` failure
(`ValueError: No objects to concatenate`) instead of returning an empty
result. -/
theorem c5_amended_no_csv_raises (dir : Dir) (time_point : Date)
    (hnc : ∀ f ∈ dir, endsWithCsv f.1 = false) :
    load_data dir time_point = Except.error r"No objects to concatenate" := by
  have hs : ∀ f ∈ List.insertionSort fileLe dir, endsWithCsv f.1 = false :=
    fun f hf => hnc f ((List.perm_insertionSort fileLe dir).mem_iff.mp hf)
  have h0 := loadFiles_all_non_csv _ hs
  simp [load_data, h0]

/-- Concrete instantiation of `c5_amended_no_csv_raises` on the empty
directory. -/
theorem c5_amended_no_csv_raises_witness :
    (∀ f ∈ ([] : Dir), endsWithCsv f.1 = false) ∧
    load_data ([] : Dir) 20120701 = Except.error r"No objects to concatenate" :=
  ⟨by simp, c5_amended_no_csv_raises [] 20120701 (by simp)⟩

theorem loadFiles_error_of_bad_name (l : Dir) (name : String)
    (contents : List (List ℚ)) (hmem : (name, contents) ∈ l)
    (hcsv : endsWithCsv name = true) (hbad : parseDate (dropExt name) = none) :
    ∃ msg, loadFiles l = Except.error msg := by
  induction l with
  | nil => cases hmem
  | cons f rest ih =>
    obtain ⟨fn, fc⟩ := f
    rcases List.mem_cons.mp hmem with heq | hmem2
    · injection heq with e1 e2
      subst e1
      exact ⟨String.append r"Unknown datetime string format: " (dropExt name),
        by simp [loadFiles, hcsv, hbad]⟩
    · by_cases hc2 : endsWithCsv fn = true
      · cases hp : parseDate (dropExt fn) with
        | none =>
          exact ⟨String.append r"Unknown datetime string format: " (dropExt fn),
            by simp [loadFiles, hc2, hp]⟩
        | some d =>
          obtain ⟨msg, hmsg⟩ := ih hmem2
          exact ⟨msg, by simp [loadFiles, hc2, hp, hmsg]⟩
      · obtain ⟨msg, hmsg⟩ := ih hmem2
        exact ⟨msg, by simp [loadFiles, hc2, hmsg]⟩

/-- C6: a `.csv` file whose filename prefix does not parse as a date
makes `load_data` fail: the format error is surfaced to the caller and
the load aborts with no partial table. -/
theorem c6_bad_filename_date_aborts (dir : Dir) (time_point : Date)
    (name : String) (contents : List (List ℚ)) (hmem : (name, contents) ∈ dir)
    (hcsv : endsWithCsv name = true) (hbad : parseDate (dropExt name) = none) :
    ∃ msg, load_data dir time_point = Except.error msg := by
  have hmem2 : (name, contents) ∈ List.insertionSort fileLe dir :=
    (List.perm_insertionSort fileLe dir).mem_iff.mpr hmem
  obtain ⟨msg, hmsg⟩ := loadFiles_error_of_bad_name _ name contents hmem2 hcsv hbad
  exact ⟨msg, by simp [load_data, hmsg]⟩

/-- Concrete instantiation of `c6_bad_filename_date_aborts`: a directory
holding one file `nodate.csv`, whose prefix `nodate` is not a date. -/
theorem c6_bad_filename_date_aborts_witness :
    ((r"nodate.csv", ([] : List (List ℚ))) ∈ ([(r"nodate.csv", [])] : Dir)) ∧
    endsWithCsv r"nodate.csv" = true ∧
    parseDate (dropExt r"nodate.csv") = none ∧
    ∃ msg, load_data ([(r"nodate.csv", [])] : Dir) 20120701 = Except.error msg :=
  ⟨List.mem_singleton_self _, by decide, by decide,
    c6_bad_filename_date_aborts [(r"nodate.csv", [])] 20120701 r"nodate.csv" []
      (List.mem_singleton_self _) (by decide) (by decide)⟩
